import Mathlib

/-!
Verification development for the lakehouse metadata discovery engine.

The definitions below are a shallow embedding of the Python sources:
  * `src/src/normalizer/metadata_normalizer.py` (MetadataNormalizer)
  * `src/src/storage/metadata_store.py` (MetadataStore, SQLite-backed)
  * `src/src/detectors/format_detector.py` (FormatDetector)
  * `src/src/readers/delta_reader.py` (DeltaReader)
  * `src/src/models/table_metadata.py` (TableMetadata, ColumnMetadata)

Python dictionaries are embedded as association lists with unique keys
(insert replaces an existing binding in place, otherwise appends, which is
exactly CPython's insertion-ordered dict).  Missing dictionary keys are
`Option`; `dict.get(k, default)` becomes `Option.getD`.  Wall-clock reads
(`datetime.now()`) are passed in as an explicit `Nat` parameter.  SQLite
tables are lists of row structures; a transaction that raises before
`commit` is rolled back, so a failing operation returns `Except.error`
and the caller keeps the previous catalog state.
-/

namespace MetaEngine

/-- Python `a or b` on optional integers: `None` and `0` are falsy. -/
def pyOrInt (a b : Option Int) : Option Int :=
  match a with
  | some v => if v = 0 then b else some v
  | none => b

/-- Python truthiness of an optional integer (`None` and `0` are falsy). -/
def intTruthy (a : Option Int) : Bool :=
  match a with
  | some v => v != 0
  | none => false

/-- Python `a or b` on optional strings: `None` and `""` are falsy. -/
def pyOrStr (a b : Option String) : Option String :=
  match a with
  | some s => if s = "" then b else some s
  | none => b

/-! ### Character-level string helpers

Python `str` methods are embedded as structural recursions over
`String.data`, so every concrete computation below reduces inside the
kernel. -/

/-- Whether `pat` is a prefix of `cs`. -/
def isPrefixList : List Char → List Char → Bool
  | [], _ => true
  | _ :: _, [] => false
  | p :: ps, c :: cs => p == c && isPrefixList ps cs

/-- Python `s.startswith(pat)`. -/
def strStartsWith (s pat : String) : Bool :=
  isPrefixList pat.data s.data

/-- Python `s.endswith(pat)`. -/
def strEndsWith (s pat : String) : Bool :=
  isPrefixList pat.data.reverse s.data.reverse

/-- Whether `pat` occurs inside `cs` (Python `pat in s`). -/
def containsSub (pat : List Char) : List Char → Bool
  | [] => pat.isEmpty
  | c :: rest => isPrefixList pat (c :: rest) || containsSub pat rest

/-- Python `pat in s` for strings. -/
def strContainsSub (s pat : String) : Bool :=
  containsSub pat.data s.data

/-- Replace every occurrence of `pat`, left to right, non-overlapping;
`fuel` bounds the recursion (callers pass the input length). -/
def replaceAux (pat rep : List Char) : Nat → List Char → List Char
  | 0, cs => cs
  | _, [] => []
  | fuel + 1, c :: rest =>
      if isPrefixList pat (c :: rest) then
        rep ++ replaceAux pat rep fuel ((c :: rest).drop pat.length)
      else
        c :: replaceAux pat rep fuel rest

/-- Python `s.replace(pat, rep)`. -/
def strReplace (s pat rep : String) : String :=
  String.mk (replaceAux pat.data rep.data s.data.length s.data)

/-- Split at every occurrence of `sep` (Python `s.split(sep)`). -/
def splitOnCharList (sep : Char) : List Char → List (List Char)
  | [] => [[]]
  | c :: rest =>
      let r := splitOnCharList sep rest
      if c == sep then [] :: r
      else
        match r with
        | h :: t => (c :: h) :: t
        | [] => [[c]]

/-- Python `s.split(sep)` for a one-character separator. -/
def strSplitOnChar (sep : Char) (s : String) : List String :=
  (splitOnCharList sep s.data).map String.mk

/-- Python `s.split(sep, 1)`: the part before the first `sep` and,
when `sep` occurs, the remainder. -/
def splitFirst (sep : Char) : List Char → List Char × Option (List Char)
  | [] => ([], none)
  | c :: rest =>
      if c == sep then ([], some rest)
      else
        let r := splitFirst sep rest
        (c :: r.1, r.2)

/-- ASCII lower-casing of one character (Python `str.lower`). -/
def charLower (c : Char) : Char :=
  if 65 ≤ c.toNat && c.toNat ≤ 90 then Char.ofNat (c.toNat + 32) else c

/-- Python `s.lower()`. -/
def strToLower (s : String) : String :=
  String.mk (s.data.map charLower)

/-- Python whitespace for `str.strip()`. -/
def isWsChar (c : Char) : Bool :=
  c == ' ' || c == '\t' || c == '\n' || c == '\r' || c == '\x0b' || c == '\x0c'

/-- Python `s.strip()`. -/
def strTrim (s : String) : String :=
  String.mk (((s.data.dropWhile isWsChar).reverse.dropWhile isWsChar).reverse)

/-- Longest prefix of `s` whose characters satisfy `p`. -/
def strTakeWhile (p : Char → Bool) (s : String) : String :=
  String.mk (s.data.takeWhile p)

/-- `s` without its longest `p`-prefix. -/
def strDropWhile (p : Char → Bool) (s : String) : String :=
  String.mk (s.data.dropWhile p)

/-- Python `s.rstrip(c)`: drop trailing characters satisfying `p`. -/
def strDropRightWhile (p : Char → Bool) (s : String) : String :=
  String.mk ((s.data.reverse.dropWhile p).reverse)

/-- Whether some character of `s` satisfies `p`. -/
def strAnyChar (p : Char → Bool) (s : String) : Bool :=
  s.data.any p

/-- Lexicographic `≤` on code points (Python string comparison). -/
def listCharLe : List Char → List Char → Bool
  | [], _ => true
  | _ :: _, [] => false
  | a :: as, b :: bs =>
      if a == b then listCharLe as bs else Nat.blt a.toNat b.toNat

/-- Python `a <= b` on strings. -/
def strLe (a b : String) : Bool :=
  listCharLe a.data b.data

/-- Python `d[k] = v` on an insertion-ordered dict embedded as an
association list: replace the binding in place if the key is present,
otherwise append. -/
def dictInsert (d : List (String × String)) (k v : String) : List (String × String) :=
  if d.any (fun p => p.1 == k) then
    d.map (fun p => if p.1 == k then (k, v) else p)
  else
    d ++ [(k, v)]

/-- Column of the unified model (`ColumnMetadata` in
`src/src/models/table_metadata.py`). -/
structure ColumnMetadata where
  name : String
  data_type : String
  nullable : Bool
  comment : Option String
deriving DecidableEq, Repr

/-- Unified table model (`TableMetadata` in
`src/src/models/table_metadata.py`).  Timestamps are clock ticks (`Nat`);
partition entries are nullable strings because the Iceberg partition
extraction appends `field.get("name")`, which may be `None`. -/
structure TableMetadata where
  table_name : String
  format : String
  location : String
  columns : List ColumnMetadata
  partitions : List (Option String)
  properties : List (String × String)
  supports_time_travel : Bool
  created_at : Option Nat
  updated_at : Option Nat
  num_files : Option Int
  size_bytes : Option Int
  row_count : Option Int
deriving DecidableEq, Repr

/-- A raw schema field's `"type"` value as readers hand it to the
normalizer: a primitive type name, a nested struct/list/map dict
(of which only the inner `"type"` key is read), or an Avro union list. -/
inductive RawFieldType where
  | prim (s : String)
  | complex (inner : Option String)
  | union (members : List String)
deriving DecidableEq, Repr

/-- The nested `"metadata"` dict of a Delta schema field; only
`"comment"` is read. -/
structure RawFieldMeta where
  comment : Option String
deriving DecidableEq, Repr

/-- A raw schema field dict; the union of all keys the three column
normalizers access. -/
structure RawField where
  id : Option Int
  name : Option String
  ftype : Option RawFieldType
  required : Option Bool
  nullable : Option Bool
  metadata : Option RawFieldMeta
  doc : Option String
  comment : Option String
deriving DecidableEq, Repr

/-- An Iceberg partition-spec field; the code probes both the
`"source-id"` and the `"sourceId"` spellings. -/
structure PartitionSpecField where
  source_id : Option Int
  sourceId : Option Int
deriving DecidableEq, Repr

/-- The Delta `protocol` action payload. -/
structure DeltaProtocol where
  minReaderVersion : Option Int
  minWriterVersion : Option Int
deriving DecidableEq, Repr

/-- A raw metadata record as passed to `MetadataNormalizer.normalize`:
the union of all dictionary keys the three `_normalize_*` branches
access, each optional since the Python record is an untyped dict. -/
structure RawMetadata where
  location : Option String
  schema : Option (List RawField)
  partition_spec : Option (List PartitionSpecField)
  snapshots : Option (List Int)
  current_snapshot_id : Option Int
  format_version : Option Int
  properties : Option (List (String × String))
  partition_columns : Option (List (Option String))
  version : Option Int
  protocol : Option DeltaProtocol
  supports_time_travel : Option Bool
  table_name : Option String
  table_type : Option String
  partition_fields : Option (List (Option String))
  timeline : Option (List String)
deriving DecidableEq, Repr

/-- A raw metadata record with every key absent. -/
def RawMetadata.empty : RawMetadata :=
  ⟨none, none, none, none, none, none, none, none, none, none, none, none, none, none, none⟩

/-- Errors raised by `MetadataNormalizer.normalize`. -/
inductive NormErr where
  | unsupported (fmt : String)
  | failed (msg : String)
deriving DecidableEq, Repr

/-- `ICEBERG_TYPE_MAP` from `metadata_normalizer.py`. -/
def ICEBERG_TYPE_MAP : List (String × String) :=
  [("boolean", "BOOLEAN"), ("int", "INTEGER"), ("long", "BIGINT"),
   ("float", "FLOAT"), ("double", "DOUBLE"), ("decimal", "DECIMAL"),
   ("date", "DATE"), ("time", "TIME"), ("timestamp", "TIMESTAMP"),
   ("timestamptz", "TIMESTAMP WITH TIME ZONE"), ("string", "VARCHAR"),
   ("uuid", "UUID"), ("fixed", "BINARY"), ("binary", "BINARY")]

/-- `DELTA_TYPE_MAP` from `metadata_normalizer.py`. -/
def DELTA_TYPE_MAP : List (String × String) :=
  [("boolean", "BOOLEAN"), ("byte", "TINYINT"), ("short", "SMALLINT"),
   ("integer", "INTEGER"), ("long", "BIGINT"), ("float", "FLOAT"),
   ("double", "DOUBLE"), ("decimal", "DECIMAL"), ("string", "VARCHAR"),
   ("binary", "BINARY"), ("date", "DATE"), ("timestamp", "TIMESTAMP")]

/-- `HUDI_TYPE_MAP` from `metadata_normalizer.py`.  Note: it has no
`"bytes"` entry (the Avro spelling); it carries `"binary"` and
`"decimal"` keys instead. -/
def HUDI_TYPE_MAP : List (String × String) :=
  [("boolean", "BOOLEAN"), ("int", "INTEGER"), ("long", "BIGINT"),
   ("float", "FLOAT"), ("double", "DOUBLE"), ("decimal", "DECIMAL"),
   ("string", "VARCHAR"), ("binary", "BINARY"), ("date", "DATE"),
   ("timestamp", "TIMESTAMP")]

/-- Python `t.split("(")[0].lower()`. -/
def baseTypeName (t : String) : String :=
  strToLower (strTakeWhile (fun c => c != '(') t)

/-- Python `t[t.index("("):]`: the suffix starting at the first `(`. -/
def paramSuffix (t : String) : String :=
  strDropWhile (fun c => c != '(') t

/-- `_map_iceberg_type`: map via `ICEBERG_TYPE_MAP`, preserving a
parenthesised parameter list; unknown types degrade to `VARCHAR`. -/
def map_iceberg_type (t : String) : String :=
  match List.lookup (baseTypeName t) ICEBERG_TYPE_MAP with
  | some sql => if strAnyChar (fun c => c == '(') t then sql ++ paramSuffix t else sql
  | none => "VARCHAR"

/-- `_map_delta_type`: same shape as the Iceberg mapping over
`DELTA_TYPE_MAP`. -/
def map_delta_type (t : String) : String :=
  match List.lookup (baseTypeName t) DELTA_TYPE_MAP with
  | some sql => if strAnyChar (fun c => c == '(') t then sql ++ paramSuffix t else sql
  | none => "VARCHAR"

/-- `_map_hudi_type`: unions unwrap to their first non-`"null"` member
(defaulting to `"string"`), then the name is looked up in
`HUDI_TYPE_MAP`; unknown types degrade to `VARCHAR`.  Parameter lists
are not re-attached.  The `complex` case models `str(dict)`, whose
rendering is never a map key, hence `VARCHAR`. -/
def map_hudi_type (t : RawFieldType) : String :=
  match t with
  | .complex _ => "VARCHAR"
  | .union members =>
      let nonNull := members.filter (fun m => m != "null")
      let name := match nonNull with
        | [] => "string"
        | x :: _ => x
      match List.lookup (baseTypeName name) HUDI_TYPE_MAP with
      | some sql => sql
      | none => "VARCHAR"
  | .prim s =>
      match List.lookup (baseTypeName s) HUDI_TYPE_MAP with
      | some sql => sql
      | none => "VARCHAR"

/-- Unwrap a nested struct/list/map dict to its inner `"type"` string
(defaulting to `"string"`), as each `_normalize_*_columns` does before
type mapping. -/
def unwrapComplex (t : RawFieldType) : RawFieldType :=
  match t with
  | .complex inner => .prim (inner.getD "string")
  | other => other

/-- Field type as a plain string for the Iceberg/Delta mappers; a union
list has no `split` method, which raises and aborts normalization
(`none`). -/
def fieldTypeString (t : RawFieldType) : Option String :=
  match unwrapComplex t with
  | .prim s => some s
  | .union _ => none
  | .complex _ => none

/-- `_normalize_iceberg_columns`; `none` models the exception raised
when a field type is a list (no `.split`). -/
def normalize_iceberg_columns (fields : List RawField) : Option (List ColumnMetadata) :=
  fields.mapM (fun f =>
    let ft := f.ftype.getD (.prim "string")
    match fieldTypeString ft with
    | some ts =>
        some { name := f.name.getD "",
               data_type := map_iceberg_type ts,
               nullable := !(f.required.getD false),
               comment := pyOrStr f.doc f.comment }
    | none => none)

/-- `_normalize_delta_columns`; `none` models the exception raised when
a field type is a list. -/
def normalize_delta_columns (fields : List RawField) : Option (List ColumnMetadata) :=
  fields.mapM (fun f =>
    let ft := f.ftype.getD (.prim "string")
    match fieldTypeString ft with
    | some ts =>
        some { name := f.name.getD "",
               data_type := map_delta_type ts,
               nullable := f.nullable.getD true,
               comment := (f.metadata.getD ⟨none⟩).comment }
    | none => none)

/-- `_normalize_hudi_columns`: total — `_map_hudi_type` accepts unions,
and nullability is `"null" ∈ union`, defaulting to `true`. -/
def normalize_hudi_columns (fields : List RawField) : List ColumnMetadata :=
  fields.map (fun f =>
    let ft := unwrapComplex (f.ftype.getD (.prim "string"))
    { name := f.name.getD "",
      data_type := map_hudi_type ft,
      nullable := match ft with
        | .union members => members.contains "null"
        | _ => true,
      comment := f.doc })

/-- `_extract_iceberg_partition_columns`: build `field.get("id") ↦
field.get("name")` (later fields override earlier ones, as in a dict
comprehension); spec fields whose `source-id`/`sourceId` is missing,
zero, or absent from the map are silently skipped. -/
def extract_iceberg_partition_columns (spec : List PartitionSpecField)
    (schema : List RawField) : List (Option String) :=
  let idToName : List (Option Int × Option String) :=
    schema.map (fun f => (f.id, f.name))
  spec.filterMap (fun pf =>
    match pyOrInt pf.source_id pf.sourceId with
    | some v =>
        if v != 0 then
          match idToName.reverse.find? (fun p => p.1 == some v) with
          | some p => some p.2
          | none => none
        else none
    | none => none)

/-- `_extract_table_name_from_path`: strip `s3://`, right-strip `/`,
return the last non-empty path segment. -/
def extract_table_name_from_path (p : String) : String :=
  let path := strReplace p "s3://" ""
  let parts := strSplitOnChar '/' (strDropRightWhile (fun c => c == '/') path)
  match parts.reverse.find? (fun s => s != "") with
  | some part => part
  | none => "unknown_table"

/-- `_normalize_iceberg`: errors only if a schema field's type is a
list; `now` is the `datetime.now()` read stored into `updated_at`. -/
def normalize_iceberg (raw : RawMetadata) (now : Nat) : Except NormErr TableMetadata :=
  let location := raw.location.getD ""
  match normalize_iceberg_columns (raw.schema.getD []) with
  | none => .error (.failed "Failed to normalize ICEBERG metadata")
  | some cols =>
    let props0 := raw.properties.getD []
    let props1 := if intTruthy raw.current_snapshot_id then
        dictInsert props0 "iceberg.current_snapshot_id"
          (toString (raw.current_snapshot_id.getD 0))
      else props0
    let props2 := if intTruthy raw.format_version then
        dictInsert props1 "iceberg.format_version"
          (toString (raw.format_version.getD 0))
      else props1
    .ok { table_name := extract_table_name_from_path location,
          format := "ICEBERG",
          location := location,
          columns := cols,
          partitions := extract_iceberg_partition_columns
            (raw.partition_spec.getD []) (raw.schema.getD []),
          properties := props2,
          supports_time_travel := (raw.snapshots.getD []).length > 0,
          created_at := none,
          updated_at := some now,
          num_files := none, size_bytes := none, row_count := none }

/-- Python `str(protocol.get(key, ""))`. -/
def protoStr (v : Option Int) : String :=
  match v with
  | some n => toString n
  | none => ""

/-- `_normalize_delta`: table name prefers a truthy
`properties["table.name"]`; partitions are copied verbatim from
`partition_columns` with no validation. -/
def normalize_delta (raw : RawMetadata) (now : Nat) : Except NormErr TableMetadata :=
  let location := raw.location.getD ""
  let table_name :=
    match pyOrStr (List.lookup "table.name" (raw.properties.getD [])) none with
    | some s => s
    | none => extract_table_name_from_path location
  match normalize_delta_columns (raw.schema.getD []) with
  | none => .error (.failed "Failed to normalize DELTA metadata")
  | some cols =>
    let props0 := raw.properties.getD []
    let props1 := match raw.version with
      | some v => dictInsert props0 "delta.version" (toString v)
      | none => props0
    let props2 := match raw.protocol with
      | some p =>
          dictInsert (dictInsert props1 "delta.minReaderVersion" (protoStr p.minReaderVersion))
            "delta.minWriterVersion" (protoStr p.minWriterVersion)
      | none => props1
    .ok { table_name := table_name,
          format := "DELTA",
          location := location,
          columns := cols,
          partitions := raw.partition_columns.getD [],
          properties := props2,
          supports_time_travel := raw.supports_time_travel.getD true,
          created_at := none,
          updated_at := some now,
          num_files := none, size_bytes := none, row_count := none }

/-- `_normalize_hudi`: total; partitions are copied verbatim from
`partition_fields` with no validation. -/
def normalize_hudi (raw : RawMetadata) (now : Nat) : Except NormErr TableMetadata :=
  let timeline := raw.timeline.getD []
  let props0 := raw.properties.getD []
  let props1 := match raw.table_type with
    | some s => if s != "" then dictInsert props0 "hudi.table.type" s else props0
    | none => props0
  let props2 := if timeline.length > 0 then
      dictInsert props1 "hudi.commits.count" (toString timeline.length)
    else props1
  .ok { table_name := raw.table_name.getD "unknown",
        format := "HUDI",
        location := raw.location.getD "",
        columns := normalize_hudi_columns (raw.schema.getD []),
        partitions := raw.partition_fields.getD [],
        properties := props2,
        supports_time_travel := raw.supports_time_travel.getD false,
        created_at := none,
        updated_at := some now,
        num_files := none, size_bytes := none, row_count := none }

/-- `MetadataNormalizer.normalize`: dispatch on the format string;
unsupported formats raise `NormalizationError`. -/
def normalize (raw : RawMetadata) (fmt : String) (now : Nat) : Except NormErr TableMetadata :=
  if fmt = "ICEBERG" then normalize_iceberg raw now
  else if fmt = "DELTA" then normalize_delta raw now
  else if fmt = "HUDI" then normalize_hudi raw now
  else .error (.unsupported fmt)

/-! ## MetadataStore (`src/src/storage/metadata_store.py`)

The SQLite catalog is two tables.  `partitions`/`properties` are stored
as `json.dumps` TEXT; since `json.loads (json.dumps x) = x` for lists of
(nullable) strings and string-to-string dicts, rows hold the decoded
values directly.  Timestamps round-trip exactly through the sqlite3
datetime adapter and `datetime.fromisoformat`, so they stay `Nat`. -/

/-- A `table_metadata` row. -/
structure TableRow where
  id : Nat
  table_name : String
  format : String
  location : String
  partitions : List (Option String)
  properties : List (String × String)
  supports_time_travel : Bool
  num_files : Option Int
  size_bytes : Option Int
  row_count : Option Int
  created_at : Nat
  updated_at : Nat
deriving DecidableEq, Repr

/-- A `column_metadata` row. -/
structure ColumnRow where
  id : Nat
  table_id : Nat
  column_name : String
  data_type : String
  nullable : Bool
  comment : Option String
  column_order : Nat
deriving DecidableEq, Repr

/-- The catalog database: both tables plus the AUTOINCREMENT counters. -/
structure Catalog where
  tables : List TableRow
  columns : List ColumnRow
  nextTableId : Nat
  nextColumnId : Nat
deriving DecidableEq, Repr

/-- Fresh catalog: both tables empty, AUTOINCREMENT starts at 1. -/
def Catalog.empty : Catalog := ⟨[], [], 1, 1⟩

/-- Well-formed counters: every stored id is below its AUTOINCREMENT
counter. -/
def Catalog.WF (st : Catalog) : Prop :=
  (∀ t ∈ st.tables, t.id < st.nextTableId) ∧
  (∀ c ∈ st.columns, c.table_id < st.nextTableId)

/-- `StorageError`; the save path wraps every `sqlite3.Error` this way. -/
inductive StorageErr where
  | backend (msg : String)
deriving DecidableEq, Repr

/-- The message of the UNIQUE-constraint failure on
`column_metadata(table_id, column_name)`. -/
def uniqueViolationMsg : String :=
  "UNIQUE constraint failed: column_metadata.table_id, column_metadata.column_name"

/-- Sequentially INSERT the columns of one table.  Each INSERT checks
UNIQUE(table_id, column_name) against the rows already in the table
and appends on success; `column_order` is the enumeration index. -/
def insertColumnRows (db : List ColumnRow) (tid cid : Nat) :
    List ColumnMetadata → Nat → Except StorageErr (List ColumnRow × Nat)
  | [], _ => .ok (db, cid)
  | c :: rest, idx =>
      if db.any (fun r => r.table_id == tid && r.column_name == c.name) then
        .error (.backend uniqueViolationMsg)
      else
        insertColumnRows
          (db ++ [⟨cid, tid, c.name, c.data_type, c.nullable, c.comment, idx⟩])
          tid (cid + 1) rest (idx + 1)

/-- The new `table_metadata` row written by `_insert_table_metadata`:
`created_at`/`updated_at` default to `datetime.now()` when unset. -/
def mkTableRow (tid : Nat) (m : TableMetadata) (now : Nat) : TableRow :=
  { id := tid, table_name := m.table_name, format := m.format,
    location := m.location, partitions := m.partitions,
    properties := m.properties,
    supports_time_travel := m.supports_time_travel,
    num_files := m.num_files, size_bytes := m.size_bytes,
    row_count := m.row_count,
    created_at := m.created_at.getD now,
    updated_at := m.updated_at.getD now }

/-- The UPDATE of `_update_table_metadata`: every field is overwritten
(including `format` — there is no format-mismatch check), `updated_at`
is refreshed, `table_name`/`id`/`created_at` are untouched. -/
def updateTableRow (t : TableRow) (m : TableMetadata) (now : Nat) : TableRow :=
  { t with format := m.format, location := m.location,
           partitions := m.partitions, properties := m.properties,
           supports_time_travel := m.supports_time_travel,
           num_files := m.num_files, size_bytes := m.size_bytes,
           row_count := m.row_count, updated_at := now }

/-- `save_table_metadata`: upsert by `table_name` in one transaction.
The update path rewrites the row, deletes the old child columns and
re-inserts; the insert path appends a fresh row and its columns.  A
constraint failure raises `StorageError` and the transaction rolls
back (the caller keeps the previous catalog). -/
def save_table_metadata (st : Catalog) (m : TableMetadata) (now : Nat) :
    Except StorageErr (Catalog × Nat) :=
  match st.tables.find? (fun t => t.table_name == m.table_name) with
  | some ex =>
      let tables' := st.tables.map (fun t =>
        if t.id == ex.id then updateTableRow t m now else t)
      let remaining := st.columns.filter (fun c => !(c.table_id == ex.id))
      match insertColumnRows remaining ex.id st.nextColumnId m.columns 0 with
      | .ok (cols', cid') =>
          .ok ({ st with tables := tables', columns := cols', nextColumnId := cid' }, ex.id)
      | .error e => .error e
  | none =>
      let tid := st.nextTableId
      match insertColumnRows st.columns tid st.nextColumnId m.columns 0 with
      | .ok (cols', cid') =>
          .ok (⟨st.tables ++ [mkTableRow tid m now], cols', tid + 1, cid'⟩, tid)
      | .error e => .error e

/-- The catalog visible after a `save_table_metadata` call: the
committed state on success, the rolled-back previous state on error. -/
def saveResultState (st : Catalog) (m : TableMetadata) (now : Nat) : Catalog :=
  match save_table_metadata st m now with
  | .ok (st', _) => st'
  | .error _ => st

/-- Insertion step of sorting rows by `column_order` (`ORDER BY`). -/
def insertByOrder (r : ColumnRow) : List ColumnRow → List ColumnRow
  | [] => [r]
  | x :: rest =>
      if r.column_order ≤ x.column_order then r :: x :: rest
      else x :: insertByOrder r rest

/-- `ORDER BY column_order` over the filtered column rows. -/
def sortByOrder (rows : List ColumnRow) : List ColumnRow :=
  rows.foldr insertByOrder []

/-- `get_table_metadata`: look the row up by name, fetch its columns
ordered by `column_order`, and rebuild a `TableMetadata` value. -/
def get_table_metadata (st : Catalog) (name : String) : Option TableMetadata :=
  match st.tables.find? (fun t => t.table_name == name) with
  | none => none
  | some row =>
      let colRows := sortByOrder (st.columns.filter (fun c => c.table_id == row.id))
      some { table_name := row.table_name,
             format := row.format,
             location := row.location,
             columns := colRows.map (fun c =>
               ⟨c.column_name, c.data_type, c.nullable, c.comment⟩),
             partitions := row.partitions,
             properties := row.properties,
             supports_time_travel := row.supports_time_travel,
             created_at := some row.created_at,
             updated_at := some row.updated_at,
             num_files := row.num_files,
             size_bytes := row.size_bytes,
             row_count := row.row_count }

/-- Insertion step of sorting names (`ORDER BY table_name`). -/
def insertByName (s : String) : List String → List String
  | [] => [s]
  | x :: rest => if strLe s x then s :: x :: rest else x :: insertByName s rest

/-- `list_tables`: names of all tables (optionally filtered by format),
sorted by name. -/
def list_tables (st : Catalog) (format_filter : Option String) : List String :=
  let rows : List TableRow := match format_filter with
    | some f => st.tables.filter (fun t => t.format == f)
    | none => st.tables
  (rows.map (fun t => t.table_name)).foldr insertByName []

/-- `delete_table_metadata`: DELETE by name; with
`PRAGMA foreign_keys = ON` the schema's `ON DELETE CASCADE` removes the
child column rows.  Returns whether a row was deleted. -/
def delete_table_metadata (st : Catalog) (name : String) : Catalog × Bool :=
  let victims := st.tables.filter (fun t => t.table_name == name)
  let remaining := st.tables.filter (fun t => !(t.table_name == name))
  let cols := st.columns.filter (fun c => !(victims.any (fun t => t.id == c.table_id)))
  (⟨remaining, cols, st.nextTableId, st.nextColumnId⟩, !victims.isEmpty)

/-- `get_table_count`: `SELECT COUNT(*) FROM table_metadata`. -/
def get_table_count (st : Catalog) : Nat :=
  st.tables.length

/-! ## FormatDetector (`src/src/detectors/format_detector.py`)

The object store is a list of bucket/key/content triples;
`list_objects_v2(Bucket, Prefix, …)` filters it by bucket and key
prefix. -/

/-- One S3 object. -/
structure S3Obj where
  bucket : String
  key : String
  content : String
deriving DecidableEq, Repr

/-- The S3 backend state. -/
structure S3State where
  objects : List S3Obj
deriving DecidableEq, Repr

/-- Objects returned by `list_objects_v2` for a bucket and key prefix. -/
def listKeys (s3 : S3State) (bucket pfx : String) : List S3Obj :=
  s3.objects.filter (fun o => o.bucket == bucket && strStartsWith o.key pfx)

/-- `TableFormat` (the detector never returns `UNKNOWN`; it raises). -/
inductive TableFormat where
  | ICEBERG
  | DELTA
  | HUDI
  | UNKNOWN
deriving DecidableEq, Repr

/-- `_parse_s3_path` (identical in detector and readers): require the
`s3://` scheme, split bucket from key path, normalize the path to end
with `/` when non-empty. -/
def parse_s3_path (p : String) : Except String (String × String) :=
  if !(strStartsWith p "s3://") then
    .error ("Invalid S3 path format: " ++ p)
  else
    let rest := strReplace p "s3://" ""
    let parts := splitFirst '/' rest.data
    let bucket := String.mk parts.1
    let pfx0 := match parts.2 with
      | some cs => String.mk cs
      | none => ""
    let pfx := if pfx0 != "" && !(strEndsWith pfx0 "/") then pfx0 ++ "/" else pfx0
    .ok (bucket, pfx)

/-- `_check_directory_exists`: a `list_objects_v2` with
`Prefix = prefix + directory` and `MaxKeys = 1` returns anything. -/
def check_directory_exists (s3 : S3State) (bucket pfx dir : String) : Bool :=
  !(listKeys s3 bucket (pfx ++ dir)).isEmpty

/-- `detect_format`: three existence probes in priority order —
`metadata/` → Iceberg, `_delta_log/` → Delta, `.hoodie/` → Hudi;
no probe looks at the names of the keys inside the subtree. -/
def detect_format (s3 : S3State) (path : String) : Except String TableFormat :=
  match parse_s3_path path with
  | .error e => .error e
  | .ok (bucket, pfx) =>
      if check_directory_exists s3 bucket pfx "metadata/" then .ok .ICEBERG
      else if check_directory_exists s3 bucket pfx "_delta_log/" then .ok .DELTA
      else if check_directory_exists s3 bucket pfx ".hoodie/" then .ok .HUDI
      else .error ("No recognized table format found at " ++ path)

/-! ## A JSON value model and parser

`DeltaReader` calls `json.loads` on each transaction-log line and on the
embedded `schemaString`.  `Json` is the value universe; numbers keep
their source lexeme (the reader never computes with them).  The parser
is fuel-indexed recursive descent; objects are built with last-wins
insertion, matching Python's dict construction. -/

/-- A parsed JSON value. -/
inductive Json where
  | null
  | bool (b : Bool)
  | num (lexeme : String)
  | str (s : String)
  | arr (elems : List Json)
  | obj (fields : List (String × Json))

/-- Python `d[k] = v` for dicts of JSON values. -/
def dictInsertJ (d : List (String × Json)) (k : String) (v : Json) :
    List (String × Json) :=
  if d.any (fun p => p.1 == k) then
    d.map (fun p => if p.1 == k then (k, v) else p)
  else
    d ++ [(k, v)]

/-- Skip JSON whitespace. -/
def skipWs : List Char → List Char
  | [] => []
  | c :: rest => if c == ' ' || c == '\t' || c == '\n' || c == '\r' then skipWs rest else c :: rest

/-- Value of one hex digit. -/
def hexVal (c : Char) : Option Nat :=
  if 48 ≤ c.toNat && c.toNat ≤ 57 then some (c.toNat - 48)
  else if 97 ≤ c.toNat && c.toNat ≤ 102 then some (c.toNat - 87)
  else if 65 ≤ c.toNat && c.toNat ≤ 70 then some (c.toNat - 55)
  else none

/-- Parse the body of a JSON string (after the opening quote),
handling the standard escapes; returns the content and the remainder. -/
def parseStrAux (acc : List Char) : List Char → Option (String × List Char)
  | [] => none
  | c :: rest =>
      if c == '"' then some (String.mk acc.reverse, rest)
      else if c == '\\' then
        match rest with
        | 'u' :: h1 :: h2 :: h3 :: h4 :: rest2 =>
            match hexVal h1, hexVal h2, hexVal h3, hexVal h4 with
            | some a, some b, some d, some e =>
                parseStrAux (Char.ofNat (((a * 16 + b) * 16 + d) * 16 + e) :: acc) rest2
            | _, _, _, _ => none
        | e :: rest2 =>
            if e == '"' || e == '\\' || e == '/' then parseStrAux (e :: acc) rest2
            else if e == 'n' then parseStrAux ('\n' :: acc) rest2
            else if e == 't' then parseStrAux ('\t' :: acc) rest2
            else if e == 'r' then parseStrAux ('\r' :: acc) rest2
            else if e == 'b' then parseStrAux ('\x08' :: acc) rest2
            else if e == 'f' then parseStrAux ('\x0c' :: acc) rest2
            else none
        | [] => none
      else parseStrAux (c :: acc) rest

/-- Is `c` an ASCII digit? -/
def isDigitChar (c : Char) : Bool :=
  48 ≤ c.toNat && c.toNat ≤ 57

/-- Consume a JSON number lexeme: sign, integer part, optional
fraction and exponent.  The lexeme is kept verbatim. -/
def parseNumLexeme (cs : List Char) : Option (String × List Char) :=
  let (sign, cs1) := match cs with
    | '-' :: rest => (['-'], rest)
    | other => (([] : List Char), other)
  let intPart := cs1.takeWhile isDigitChar
  let cs2 := cs1.dropWhile isDigitChar
  if intPart.isEmpty then none
  else
    let (frac, cs3) := match cs2 with
      | '.' :: rest =>
          let ds := rest.takeWhile isDigitChar
          if ds.isEmpty then (([] : List Char), cs2)
          else ('.' :: ds, rest.dropWhile isDigitChar)
      | other => (([] : List Char), other)
    let (expo, cs4) := match cs3 with
      | e :: rest =>
          if e == 'e' || e == 'E' then
            let (esign, rest2) := match rest with
              | '+' :: r => (['+'], r)
              | '-' :: r => (['-'], r)
              | r => (([] : List Char), r)
            let ds := rest2.takeWhile isDigitChar
            if ds.isEmpty then (([] : List Char), cs3)
            else (e :: (esign ++ ds), rest2.dropWhile isDigitChar)
          else (([] : List Char), cs3)
      | [] => (([] : List Char), cs3)
    some (String.mk (sign ++ intPart ++ frac ++ expo), cs4)

mutual

/-- Parse one JSON value; `fuel` bounds the nesting. -/
def parseVal (fuel : Nat) (cs : List Char) : Option (Json × List Char) :=
  match fuel with
  | 0 => none
  | fuel + 1 =>
      match skipWs cs with
      | 'n' :: 'u' :: 'l' :: 'l' :: rest => some (.null, rest)
      | 't' :: 'r' :: 'u' :: 'e' :: rest => some (.bool true, rest)
      | 'f' :: 'a' :: 'l' :: 's' :: 'e' :: rest => some (.bool false, rest)
      | '"' :: rest =>
          match parseStrAux [] rest with
          | some (s, rest2) => some (.str s, rest2)
          | none => none
      | '[' :: rest =>
          match skipWs rest with
          | ']' :: rest2 => some (.arr [], rest2)
          | other =>
              match parseElems fuel other with
              | some (elems, rest2) => some (.arr elems, rest2)
              | none => none
      | '{' :: rest =>
          match skipWs rest with
          | '}' :: rest2 => some (.obj [], rest2)
          | other =>
              match parseMembers fuel [] other with
              | some (kvs, rest2) => some (.obj kvs, rest2)
              | none => none
      | other =>
          match parseNumLexeme other with
          | some (lex, rest) => some (.num lex, rest)
          | none => none

/-- Parse one-or-more comma-separated array elements up to `]`. -/
def parseElems (fuel : Nat) (cs : List Char) : Option (List Json × List Char) :=
  match fuel with
  | 0 => none
  | fuel + 1 =>
      match parseVal fuel cs with
      | some (v, rest) =>
          match skipWs rest with
          | ',' :: rest2 =>
              match parseElems fuel rest2 with
              | some (vs, rest3) => some (v :: vs, rest3)
              | none => none
          | ']' :: rest2 => some ([v], rest2)
          | _ => none
      | none => none

/-- Parse one-or-more `"key": value` members up to the closing brace
(`acc` holds the dict built so far, last binding wins). -/
def parseMembers (fuel : Nat) (acc : List (String × Json)) (cs : List Char) :
    Option (List (String × Json) × List Char) :=
  match fuel with
  | 0 => none
  | fuel + 1 =>
      match skipWs cs with
      | '"' :: rest =>
          match parseStrAux [] rest with
          | some (k, rest2) =>
              match skipWs rest2 with
              | ':' :: rest3 =>
                  match parseVal fuel rest3 with
                  | some (v, rest4) =>
                      let acc2 := dictInsertJ acc k v
                      match skipWs rest4 with
                      | ',' :: rest5 => parseMembers fuel acc2 rest5
                      | '}' :: rest5 => some (acc2, rest5)
                      | _ => none
                  | none => none
              | _ => none
          | none => none
      | _ => none

end

/-- Python `json.loads`: parse one value, allowing surrounding
whitespace only. -/
def jsonParse (s : String) : Option Json :=
  match parseVal (2 * s.data.length + 4) s.data with
  | some (j, rest) => if (skipWs rest).isEmpty then some j else none
  | none => none

/-! ## DeltaReader (`src/src/readers/delta_reader.py`) -/

/-- Python `k in entry` on a JSON value: key test for dicts, member
test for arrays, substring test for strings; `none` is the `TypeError`
raised for the other types. -/
def jHasKey (j : Json) (k : String) : Option Bool :=
  match j with
  | .obj kvs => some (kvs.any (fun p => p.1 == k))
  | .arr l => some (l.any (fun e =>
      match e with
      | .str s => s == k
      | _ => false))
  | .str s => some (strContainsSub s k)
  | _ => none

/-- Python `entry[k]`: only dict lookup succeeds; `none` is the
`TypeError`/`KeyError` raised otherwise. -/
def jIndexKey (j : Json) (k : String) : Option Json :=
  match j with
  | .obj kvs => (kvs.find? (fun p => p.1 == k)).map (fun p => p.2)
  | _ => none

/-- `_merge_log_entries`: fold the parsed actions; a `metaData` payload
is `dict.update`-merged (it must be a mapping), a `protocol` payload is
stored under the `"protocol"` key.  `none` models an uncaught
`TypeError`. -/
def mergeLogEntries (entries : List Json) : Option (List (String × Json)) :=
  entries.foldlM (fun merged entry => do
    let hasMeta ← jHasKey entry "metaData"
    let merged1 ←
      if hasMeta then
        match jIndexKey entry "metaData" with
        | some (.obj kvs) => some (kvs.foldl (fun d p => dictInsertJ d p.1 p.2) merged)
        | _ => none
      else some merged
    let hasProto ← jHasKey entry "protocol"
    if hasProto then
      match jIndexKey entry "protocol" with
      | some v => some (dictInsertJ merged1 "protocol" v)
      | none => none
    else some merged1) []

/-- First binding of `k` in the merged entry (keys are unique by
construction). -/
def mergedGet (merged : List (String × Json)) (k : String) : Option Json :=
  (merged.find? (fun p => p.1 == k)).map (fun p => p.2)

/-- `_extract_schema`: `schemaString` defaults to `"\x7b\x7d"`; a parse
failure is caught and yields `[]`; the parsed document's `fields` key
defaults to `[]`.  `none` models the uncaught `TypeError`/
`AttributeError` when `schemaString` is not a string or its parse is
not a dict. -/
def extract_schema (merged : List (String × Json)) : Option Json :=
  let ss : Option String :=
    match mergedGet merged "schemaString" with
    | none => some "\x7b\x7d"
    | some (.str s) => some s
    | some _ => none
  match ss with
  | none => none
  | some s =>
      match jsonParse s with
      | none => some (Json.arr [])
      | some (.obj kvs) => some ((mergedGet kvs "fields").getD (Json.arr []))
      | some _ => none

/-- `_extract_partition_columns`: `partitionColumns` with default `[]`. -/
def extract_partition_columns (merged : List (String × Json)) : Json :=
  (mergedGet merged "partitionColumns").getD (Json.arr [])

/-- `_extract_properties`: copy `configuration` (a mapping, else
`TypeError`) and graft `table.name` / `table.description`. -/
def extract_properties (merged : List (String × Json)) :
    Option (List (String × Json)) :=
  match (mergedGet merged "configuration").getD (Json.obj []) with
  | .obj kvs =>
      let props1 := match mergedGet merged "name" with
        | some v => dictInsertJ kvs "table.name" v
        | none => kvs
      let props2 := match mergedGet merged "description" with
        | some v => dictInsertJ props1 "table.description" v
        | none => props1
      some props2
  | _ => none

/-- Python `int(s)`: strip whitespace, optional sign, decimal digits. -/
def pyInt (s : String) : Option Int :=
  let cs := (strTrim s).data
  let core : Option (Bool × List Char) := match cs with
    | '-' :: rest => some (true, rest)
    | '+' :: rest => some (false, rest)
    | other => some (false, other)
  match core with
  | some (neg, ds) =>
      if ds.isEmpty || !(ds.all isDigitChar) then none
      else
        let n : Nat := ds.foldl (fun acc c => acc * 10 + (c.toNat - 48)) 0
        some (if neg then -(n : Int) else (n : Int))
  | none => none

/-- The raw record `DeltaReader.read_metadata` returns; schema and
partition columns stay JSON values (the normalizer consumes them). -/
structure DeltaRawOut where
  format : String
  location : String
  version : Int
  schema : Json
  partition_columns : Json
  properties : List (String × Json)
  created_time : Option Json
  supports_time_travel : Bool
  protocol : Option Json

/-- Pick the lexically greatest key (Python sorts the listing by key
and takes the last element). -/
def maxByKey (a : S3Obj) (l : List S3Obj) : S3Obj :=
  l.foldl (fun acc o => if strLe acc.key o.key then o else acc) a

/-- `DeltaReader.read_metadata`: list `_delta_log/`, keep the
non-checkpoint `.json` files, read the lexically greatest, parse each
non-blank line as JSON, merge the actions, extract the fields.  Any
uncaught exception surfaces as `MetadataReadError`. -/
def read_metadata_delta (s3 : S3State) (path : String) : Except String DeltaRawOut :=
  match parse_s3_path path with
  | .error e => .error e
  | .ok (bucket, pfx) =>
      let logPfx := pfx ++ "_delta_log/"
      let listed := listKeys s3 bucket logPfx
      if listed.isEmpty then
        .error ("No transaction log files found in " ++ logPfx)
      else
        match listed.filter (fun o =>
            strEndsWith o.key ".json" && !(strEndsWith o.key ".checkpoint.json")) with
        | [] => .error ("No valid transaction log files found in " ++ logPfx)
        | f :: fs =>
            let latest := maxByKey f fs
            let filename := (strSplitOnChar '/' latest.key).getLastD ""
            match pyInt (strReplace filename ".json" "") with
            | none => .error ("Failed to read Delta metadata from " ++ path)
            | some version =>
                let lines := (strSplitOnChar '\n' (strTrim latest.content)).filter
                  (fun l => strTrim l != "")
                match lines.mapM jsonParse with
                | none => .error ("Failed to read Delta metadata from " ++ path)
                | some entries =>
                    match mergeLogEntries entries with
                    | none => .error ("Failed to read Delta metadata from " ++ path)
                    | some merged =>
                        match extract_schema merged, extract_properties merged with
                        | some schema, some props =>
                            .ok { format := "DELTA", location := path,
                                  version := version, schema := schema,
                                  partition_columns := extract_partition_columns merged,
                                  properties := props,
                                  created_time := mergedGet merged "createdTime",
                                  supports_time_travel := true,
                                  protocol := mergedGet merged "protocol" }
                        | _, _ => .error ("Failed to read Delta metadata from " ++ path)

/-! ## Auxiliary definitions used by the statements below -/

/-- Decidable equality for `Except` results. -/
instance {ε α : Type _} [DecidableEq ε] [DecidableEq α] : DecidableEq (Except ε α) := fun a b =>
  match a, b with
  | .ok x, .ok y =>
      if h : x = y then .isTrue (by subst h; rfl)
      else .isFalse (fun hc => by cases hc; exact h rfl)
  | .error x, .error y =>
      if h : x = y then .isTrue (by subst h; rfl)
      else .isFalse (fun hc => by cases hc; exact h rfl)
  | .ok _, .error _ => .isFalse (fun hc => by cases hc)
  | .error _, .ok _ => .isFalse (fun hc => by cases hc)

/-- A `TableMetadata` with its `updated_at` forgotten. -/
def eraseUpdatedAt (md : TableMetadata) : TableMetadata :=
  { md with updated_at := none }

/-- The column rows produced by a successful sequence of column
INSERTs: ids count up from `cid`, orders from `idx`. -/
def mkColRows (tid cid idx : Nat) : List ColumnMetadata → List ColumnRow
  | [] => []
  | c :: rest =>
      ⟨cid, tid, c.name, c.data_type, c.nullable, c.comment, idx⟩ ::
        mkColRows tid (cid + 1) (idx + 1) rest

/-! Concrete fixtures for the counterexamples and witnesses. -/

/-- A Delta raw record whose partition column `x` matches no schema
field. -/
def rawNoSuchPartition : RawMetadata :=
  { RawMetadata.empty with
      location := some "s3://b/t",
      schema := some [⟨none, some "id", some (.prim "long"), none, some false, none, none, none⟩],
      partition_columns := some [some "x"] }

/-- The normalizer's output on `rawNoSuchPartition`. -/
def mdNoSuchPartition : TableMetadata :=
  { table_name := "t", format := "DELTA", location := "s3://b/t",
    columns := [⟨"id", "BIGINT", false, none⟩],
    partitions := [some "x"], properties := [],
    supports_time_travel := true, created_at := none,
    updated_at := some 7, num_files := none, size_bytes := none,
    row_count := none }

/-- An Iceberg raw record whose single partition-spec field has the
dangling `source-id` 99 (the only schema field has id 1). -/
def rawDangling : RawMetadata :=
  { RawMetadata.empty with
      location := some "s3://b/t",
      schema := some [⟨some 1, some "a", some (.prim "long"), some true, none, none, none, none⟩],
      partition_spec := some [⟨some 99, none⟩],
      snapshots := some [10] }

/-- A bucket whose `tbl/metadata/` subtree holds one object that is
neither a `.metadata.json` file nor `version-hint.text`. -/
def s3MetadataJunk : S3State :=
  ⟨[⟨"b", "tbl/metadata/notes.txt", ""⟩]⟩

/-- A Delta table whose only log entry has no `schemaString`. -/
def s3NoSchemaString : S3State :=
  ⟨[⟨"b", "tbl/_delta_log/00000000000000000000.json",
     "\x7b\"metaData\":\x7b\"partitionColumns\":[\"dt\"]\x7d\x7d"⟩]⟩

/-- A Delta table whose `schemaString` is not parseable JSON. -/
def s3BadSchemaString : S3State :=
  ⟨[⟨"b", "tbl/_delta_log/00000000000000000000.json",
     "\x7b\"metaData\":\x7b\"schemaString\":\"oops\"\x7d\x7d"⟩]⟩

/-- A catalog holding one Iceberg table named `t`. -/
def catIceberg : Catalog :=
  ⟨[⟨1, "t", "ICEBERG", "s3://b/t", [], [], true, none, none, none, 10, 10⟩],
   [⟨1, 1, "a", "BIGINT", false, none, 0⟩], 2, 2⟩

/-- A Delta re-discovery of the table named `t`. -/
def mdDeltaT : TableMetadata :=
  { table_name := "t", format := "DELTA", location := "s3://b/t",
    columns := [⟨"x", "VARCHAR", true, none⟩],
    partitions := [], properties := [],
    supports_time_travel := true, created_at := none, updated_at := some 5,
    num_files := none, size_bytes := none, row_count := none }

/-- Normalizer-style metadata (`created_at = None`) for the round-trip
counterexample. -/
def mdFresh : TableMetadata :=
  { table_name := "t", format := "DELTA", location := "s3://b/t",
    columns := [⟨"id", "BIGINT", false, none⟩, ⟨"dt", "DATE", true, none⟩],
    partitions := [some "dt"], properties := [("delta.version", "0")],
    supports_time_travel := true, created_at := none, updated_at := some 7,
    num_files := none, size_bytes := none, row_count := none }

/-- Metadata with a duplicated column name. -/
def mdDupCols : TableMetadata :=
  { table_name := "t", format := "DELTA", location := "s3://b/t",
    columns := [⟨"a", "BIGINT", false, none⟩, ⟨"a", "VARCHAR", true, none⟩],
    partitions := [], properties := [],
    supports_time_travel := true, created_at := none, updated_at := some 7,
    num_files := none, size_bytes := none, row_count := none }

/-- A catalog with two tables (`t`, `u`) and one column row each. -/
def catTwoTables : Catalog :=
  ⟨[⟨1, "t", "DELTA", "s3://b/t", [], [], true, none, none, none, 0, 0⟩,
    ⟨2, "u", "HUDI", "s3://b/u", [], [], false, none, none, none, 0, 0⟩],
   [⟨1, 1, "a", "BIGINT", false, none, 0⟩,
    ⟨2, 2, "b", "VARCHAR", true, none, 0⟩], 3, 3⟩

/-! ## Claim C5 — Hudi type-mapping totality -/

/-- C5 counterexample: the Hudi Avro type `bytes` does not map to
`BINARY` as claimed; `HUDI_TYPE_MAP` has no `bytes` key, so it degrades
to `VARCHAR`. -/
theorem C5_hudi_bytes_counterexample :
    map_hudi_type (.prim "bytes") = "VARCHAR" ∧
    map_hudi_type (.prim "bytes") ≠ "BINARY" := by
  decide

/-- C5 (amended): every Hudi Avro type in
`boolean`/`int`/`long`/`float`/`double`/`string`/`date`/`timestamp`
maps to its listed SQL target; `bytes` is absent from `HUDI_TYPE_MAP`
and degrades to `VARCHAR` like any type whose base name misses the
map, and the mapping is total (it never fails the pipeline). -/
theorem C5_hudi_type_mapping :
    (map_hudi_type (.prim "boolean") = "BOOLEAN" ∧
     map_hudi_type (.prim "int") = "INTEGER" ∧
     map_hudi_type (.prim "long") = "BIGINT" ∧
     map_hudi_type (.prim "float") = "FLOAT" ∧
     map_hudi_type (.prim "double") = "DOUBLE" ∧
     map_hudi_type (.prim "string") = "VARCHAR" ∧
     map_hudi_type (.prim "date") = "DATE" ∧
     map_hudi_type (.prim "timestamp") = "TIMESTAMP" ∧
     map_hudi_type (.prim "bytes") = "VARCHAR") ∧
    ∀ s : String, List.lookup (baseTypeName s) HUDI_TYPE_MAP = none →
      map_hudi_type (.prim s) = "VARCHAR" := by
  refine ⟨by decide, ?_⟩
  intro s h
  simp [map_hudi_type, h]

/-- C5 witness: a type outside the vocabulary maps to `VARCHAR`. -/
theorem C5_hudi_type_mapping_witness :
    map_hudi_type (.prim "geometry") = "VARCHAR" :=
  C5_hudi_type_mapping.2 "geometry" (by decide)

/-! ## Claim C3 — Iceberg detection condition -/

/-- C3 counterexample: a prefix whose `metadata/` subtree holds only
`notes.txt` — no key ending in `.metadata.json` and no
`version-hint.text` — is still classified Iceberg. -/
theorem C3_detect_counterexample :
    detect_format s3MetadataJunk "s3://b/tbl" = .ok .ICEBERG ∧
    listKeys s3MetadataJunk "b" "tbl/metadata/" ≠ [] ∧
    (listKeys s3MetadataJunk "b" "tbl/metadata/").all
      (fun o => !(strEndsWith o.key ".metadata.json") &&
                !(o.key == "tbl/metadata/version-hint.text")) = true :=
  ⟨rfl, by decide, by decide⟩

/-- C3 (amended): the detector classifies a URI as Iceberg whenever
any object exists under `{prefix}metadata/`; it never inspects the key
names inside that subtree. -/
theorem C3_iceberg_on_any_metadata_object :
    ∀ (s3 : S3State) (path bucket pfx : String),
      parse_s3_path path = .ok (bucket, pfx) →
      listKeys s3 bucket (pfx ++ "metadata/") ≠ [] →
      detect_format s3 path = .ok .ICEBERG := by
  intro s3 path bucket pfx hp hne
  have hcheck : check_directory_exists s3 bucket pfx "metadata/" = true := by
    cases h : listKeys s3 bucket (pfx ++ "metadata/") with
    | nil => exact absurd h hne
    | cons a l => simp [check_directory_exists, h]
  simp [detect_format, hp, hcheck]

/-- C3 witness: the amended rule applied to the junk-only store. -/
theorem C3_iceberg_on_any_metadata_object_witness :
    detect_format s3MetadataJunk "s3://b/tbl" = .ok .ICEBERG :=
  C3_iceberg_on_any_metadata_object s3MetadataJunk "s3://b/tbl" "b" "tbl/" rfl (by decide)

/-! ## Claim C4 — Delta missing/unparseable schemaString -/

/-- C4 counterexample: a Delta table whose only log entry lacks
`schemaString` (resp. carries an unparseable one) is read successfully
with an empty schema — `read_metadata` does not fail. -/
theorem C4_delta_schema_fallback_counterexample :
    (read_metadata_delta s3NoSchemaString "s3://b/tbl").toOption.map
      (fun o => o.schema) = some (Json.arr []) ∧
    (read_metadata_delta s3BadSchemaString "s3://b/tbl").toOption.map
      (fun o => o.schema) = some (Json.arr []) :=
  ⟨rfl, rfl⟩

/-- C4 (amended): `_extract_schema` silently yields `[]` both when the
merged log entry has no `schemaString` key (the default `"\x7b\x7d"`
parses to an empty document) and when `schemaString` is a string that
fails to parse (the `JSONDecodeError` is caught); neither case raises. -/
theorem C4_schema_silent_fallback :
    ∀ merged : List (String × Json),
      (mergedGet merged "schemaString" = none →
        extract_schema merged = some (Json.arr [])) ∧
      (∀ s, mergedGet merged "schemaString" = some (.str s) →
        jsonParse s = none → extract_schema merged = some (Json.arr [])) := by
  intro merged
  constructor
  · intro h
    simp only [extract_schema, h]
    rfl
  · intro s hs hparse
    simp only [extract_schema, hs]
    rw [hparse]

/-- C4 witness: the empty merged entry has no `schemaString` and
extracts the empty schema. -/
theorem C4_schema_silent_fallback_witness :
    extract_schema [] = some (Json.arr []) :=
  (C4_schema_silent_fallback []).1 rfl

/-! ## Claim C6 — dangling partition source-id -/

/-- C6 counterexample: an Iceberg record whose partition spec
references the nonexistent field id 99 normalizes successfully with an
empty partitions list — no dangling-source-id error is raised. -/
theorem C6_dangling_counterexample :
    normalize rawDangling "ICEBERG" 3 =
      .ok { table_name := "t", format := "ICEBERG", location := "s3://b/t",
            columns := [⟨"a", "BIGINT", false, none⟩],
            partitions := [], properties := [],
            supports_time_travel := true, created_at := none,
            updated_at := some 3, num_files := none, size_bytes := none,
            row_count := none } := by
  rfl

/-- C6 (amended): a partition-spec field whose `source-id` is missing,
zero, or absent from the schema's field-id map is silently skipped: the
extraction is total, and every emitted partition entry is the name of
some schema field. -/
theorem C6_dangling_silently_skipped :
    ∀ (spec : List PartitionSpecField) (schema : List RawField) (p : Option String),
      p ∈ extract_iceberg_partition_columns spec schema →
      ∃ f ∈ schema, f.name = p := by
  intro spec schema p hp
  unfold extract_iceberg_partition_columns at hp
  rw [List.mem_filterMap] at hp
  obtain ⟨pf, _, hg⟩ := hp
  cases hsid : pyOrInt pf.source_id pf.sourceId with
  | none => simp [hsid] at hg
  | some v =>
      by_cases hv : (v != 0) = true
      · simp only [hsid, hv, if_true] at hg
        cases hfind : (schema.map (fun f => (f.id, f.name))).reverse.find?
            (fun q => q.1 == some v) with
        | none => simp [hfind] at hg
        | some q =>
            simp only [hfind, Option.some.injEq] at hg
            have hqmem : q ∈ (schema.map (fun f => (f.id, f.name))).reverse :=
              List.mem_of_find?_eq_some hfind
            rw [List.mem_reverse, List.mem_map] at hqmem
            obtain ⟨f, hf, hfq⟩ := hqmem
            exact ⟨f, hf, by rw [← hg, ← hfq]⟩
      · simp [hsid, hv] at hg

/-- C6 witness: a resolvable spec field's output really does name a
schema field. -/
theorem C6_dangling_silently_skipped_witness :
    ∃ f ∈ [(⟨some 1, some "a", none, none, none, none, none, none⟩ : RawField)],
      f.name = some "a" :=
  C6_dangling_silently_skipped [⟨some 1, none⟩]
    [⟨some 1, some "a", none, none, none, none, none, none⟩] (some "a") (by decide)

/-! ## Claim C7 — normalizer determinism -/

/-- C7 counterexample: two invocations of `normalize` on the same raw
record at different wall-clock instants return different
`TableMetadata` values (the `updated_at` stamps differ). -/
theorem C7_now_counterexample :
    normalize RawMetadata.empty "HUDI" 0 ≠ normalize RawMetadata.empty "HUDI" 1 := by
  decide

/-- C7 (amended): `normalize` is a pure function of the raw record,
the format string and the clock; two invocations with equal raw inputs
agree on every field except `updated_at`, which records the
`datetime.now()` of the call. -/
theorem C7_deterministic_mod_updated_at :
    ∀ (raw : RawMetadata) (fmt : String) (n1 n2 : Nat),
      (normalize raw fmt n1).map eraseUpdatedAt =
      (normalize raw fmt n2).map eraseUpdatedAt := by
  intro raw fmt n1 n2
  unfold normalize
  by_cases h1 : fmt = "ICEBERG"
  · simp only [if_pos h1]
    unfold normalize_iceberg
    cases hc : normalize_iceberg_columns (raw.schema.getD []) <;>
      simp [hc, Except.map, eraseUpdatedAt]
  · simp only [if_neg h1]
    by_cases h2 : fmt = "DELTA"
    · simp only [if_pos h2]
      unfold normalize_delta
      cases hc : normalize_delta_columns (raw.schema.getD []) <;>
        simp [hc, Except.map, eraseUpdatedAt]
    · simp only [if_neg h2]
      by_cases h3 : fmt = "HUDI"
      · simp only [if_pos h3]
        unfold normalize_hudi
        simp [Except.map, eraseUpdatedAt]
      · simp only [if_neg h3]

/-! ## Claim C2 — partition-subset invariant -/

/-- C2 counterexample: a Delta record whose partition column `x`
matches no schema column normalizes successfully; the produced
`TableMetadata` carries the unresolvable partition name. -/
theorem C2_no_partition_check_counterexample :
    normalize rawNoSuchPartition "DELTA" 7 = .ok mdNoSuchPartition ∧
    mdNoSuchPartition.partitions = [some "x"] ∧
    mdNoSuchPartition.columns.all (fun c => c.name != "x") = true :=
  ⟨rfl, rfl, by decide⟩

/-- C2 (amended): the normalizer performs no partition-subset check —
for Delta and Hudi the raw partition lists are copied verbatim into
the produced `TableMetadata`, whether or not the names resolve to
columns, and no unknown-partition-column error is ever raised. -/
theorem C2_partitions_passed_through :
    (∀ (raw : RawMetadata) (now : Nat) (md : TableMetadata),
        normalize raw "DELTA" now = .ok md →
        md.partitions = raw.partition_columns.getD []) ∧
    (∀ (raw : RawMetadata) (now : Nat) (md : TableMetadata),
        normalize raw "HUDI" now = .ok md →
        md.partitions = raw.partition_fields.getD []) := by
  constructor
  · intro raw now md h
    have h' : normalize_delta raw now = Except.ok md := h
    unfold normalize_delta at h'
    cases hc : normalize_delta_columns (raw.schema.getD []) with
    | none => rw [hc] at h'; exact Except.noConfusion h'
    | some cols =>
        rw [hc] at h'
        have := Except.ok.inj h'
        rw [← this]
  · intro raw now md h
    have h' : normalize_hudi raw now = Except.ok md := h
    unfold normalize_hudi at h'
    have := Except.ok.inj h'
    rw [← this]

/-- C2 witness: the pass-through equation at the concrete record. -/
theorem C2_partitions_passed_through_witness :
    mdNoSuchPartition.partitions = rawNoSuchPartition.partition_columns.getD [] :=
  C2_partitions_passed_through.1 rawNoSuchPartition 7 mdNoSuchPartition rfl

/-! ## Store lemmas shared by the catalog claims -/

/-- Without name clashes, the column INSERT loop succeeds and appends
exactly the enumerated rows. -/
theorem insertColumnRows_ok :
    ∀ (cols : List ColumnMetadata) (db : List ColumnRow) (tid cid idx : Nat),
      (cols.map (fun c => c.name)).Nodup →
      (∀ r ∈ db, r.table_id = tid → ¬ r.column_name ∈ cols.map (fun c => c.name)) →
      insertColumnRows db tid cid cols idx =
        .ok (db ++ mkColRows tid cid idx cols, cid + cols.length) := by
  intro cols
  induction cols with
  | nil => intro db tid cid idx _ _; simp [insertColumnRows, mkColRows]
  | cons c rest ih =>
      intro db tid cid idx hnd hdb
      have hchk : db.any (fun r => r.table_id == tid && r.column_name == c.name) = false := by
        rw [List.any_eq_false]
        intro r hr
        simp only [Bool.and_eq_true, beq_iff_eq, not_and]
        intro h1 h2
        exact hdb r hr h1 (by
          rw [h2]
          exact List.mem_map_of_mem _ (List.mem_cons_self c rest))
      have hstep : insertColumnRows db tid cid (c :: rest) idx =
          insertColumnRows
            (db ++ [⟨cid, tid, c.name, c.data_type, c.nullable, c.comment, idx⟩])
            tid (cid + 1) rest (idx + 1) := by
        simp [insertColumnRows, hchk]
      have hnd' : (rest.map (fun c => c.name)).Nodup := by
        rw [List.map_cons, List.nodup_cons] at hnd
        exact hnd.2
      have hnotin : ¬ c.name ∈ rest.map (fun c => c.name) := by
        rw [List.map_cons, List.nodup_cons] at hnd
        exact hnd.1
      have hdb' : ∀ r ∈ db ++ [(⟨cid, tid, c.name, c.data_type, c.nullable,
          c.comment, idx⟩ : ColumnRow)], r.table_id = tid →
          ¬ r.column_name ∈ rest.map (fun c => c.name) := by
        intro r hr h1
        rcases List.mem_append.mp hr with hl | hs
        · intro hmem
          exact hdb r hl h1 (by rw [List.map_cons]; exact List.mem_cons_of_mem _ hmem)
        · rw [List.mem_singleton] at hs
          subst hs
          exact hnotin
      rw [hstep, ih _ tid (cid + 1) (idx + 1) hnd' hdb']
      rw [List.append_assoc, List.singleton_append]
      have : cid + 1 + rest.length = cid + (rest.length + 1) := by omega
      rw [this]
      rfl

/-- If a conflicting column name is already in the table, the INSERT
loop raises the UNIQUE-constraint error. -/
theorem insertColumnRows_conflict :
    ∀ (cols : List ColumnMetadata) (db : List ColumnRow) (tid cid idx : Nat),
      (∃ c, c ∈ cols ∧
        db.any (fun r => r.table_id == tid && r.column_name == c.name) = true) →
      insertColumnRows db tid cid cols idx = .error (.backend uniqueViolationMsg) := by
  intro cols
  induction cols with
  | nil =>
      intro db tid cid idx hconf
      obtain ⟨c, hc, _⟩ := hconf
      cases hc
  | cons c rest ih =>
      intro db tid cid idx hconf
      by_cases hchk : db.any (fun r => r.table_id == tid && r.column_name == c.name) = true
      · simp [insertColumnRows, hchk]
      · obtain ⟨c', hc', hany⟩ := hconf
        rcases List.mem_cons.mp hc' with rfl | hmem
        · exact absurd hany hchk
        · have hstep : insertColumnRows db tid cid (c :: rest) idx =
              insertColumnRows
                (db ++ [⟨cid, tid, c.name, c.data_type, c.nullable, c.comment, idx⟩])
                tid (cid + 1) rest (idx + 1) := by
            simp only [insertColumnRows]
            rw [if_neg hchk]
          rw [hstep]
          apply ih
          exact ⟨c', hmem, by rw [List.any_append, hany]; rfl⟩

/-- Duplicate names among the columns themselves make the INSERT loop
raise the UNIQUE-constraint error, for every starting table state. -/
theorem insertColumnRows_dup :
    ∀ (cols : List ColumnMetadata) (db : List ColumnRow) (tid cid idx : Nat),
      ¬ (cols.map (fun c => c.name)).Nodup →
      insertColumnRows db tid cid cols idx = .error (.backend uniqueViolationMsg) := by
  intro cols
  induction cols with
  | nil => intro db tid cid idx hdup; exact absurd List.nodup_nil hdup
  | cons c rest ih =>
      intro db tid cid idx hdup
      by_cases hchk : db.any (fun r => r.table_id == tid && r.column_name == c.name) = true
      · simp [insertColumnRows, hchk]
      · have hstep : insertColumnRows db tid cid (c :: rest) idx =
            insertColumnRows
              (db ++ [⟨cid, tid, c.name, c.data_type, c.nullable, c.comment, idx⟩])
              tid (cid + 1) rest (idx + 1) := by
          simp only [insertColumnRows]
          rw [if_neg hchk]
        rw [hstep]
        rw [List.map_cons, List.nodup_cons] at hdup
        by_cases hmem : c.name ∈ rest.map (fun c => c.name)
        · apply insertColumnRows_conflict
          obtain ⟨c', hc', hname⟩ := List.mem_map.mp hmem
          refine ⟨c', hc', ?_⟩
          rw [List.any_append]
          have : [(⟨cid, tid, c.name, c.data_type, c.nullable, c.comment,
              idx⟩ : ColumnRow)].any
              (fun r => r.table_id == tid && r.column_name == c'.name) = true := by
            simp [hname]
          rw [this]
          exact Bool.or_true _
        · have hrest : ¬ (rest.map (fun c => c.name)).Nodup := by
            intro h
            exact hdup ⟨hmem, h⟩
          exact ih _ tid (cid + 1) (idx + 1) hrest

/-- `find?` over a map that preserves the predicate's verdict. -/
theorem find?_map_preserve {α : Type _} (f : α → α) (p : α → Bool)
    (hp : ∀ x, p (f x) = p x) :
    ∀ (l : List α) (a : α), l.find? p = some a → (l.map f).find? p = some (f a) := by
  intro l
  induction l with
  | nil => intro a h; simp at h
  | cons x xs ih =>
      intro a h
      by_cases hpx : p x = true
      · rw [List.find?_cons_of_pos _ hpx] at h
        rw [List.map_cons, List.find?_cons_of_pos _ (by rw [hp]; exact hpx)]
        rw [Option.some.inj h]
      · rw [List.find?_cons_of_neg _ (by simp [hpx])] at h
        rw [List.map_cons, List.find?_cons_of_neg _ (by simp [hp, hpx])]
        exact ih a h

/-- `find?` skips a block with no matches. -/
theorem find?_append_none {α : Type _} (p : α → Bool) :
    ∀ (l1 l2 : List α), l1.find? p = none → (l1 ++ l2).find? p = l2.find? p := by
  intro l1
  induction l1 with
  | nil => intro l2 _; rfl
  | cons x xs ih =>
      intro l2 h
      by_cases hpx : p x = true
      · rw [List.find?_cons_of_pos _ hpx] at h; cases h
      · rw [List.find?_cons_of_neg _ (by simp [hpx])] at h
        rw [List.cons_append, List.find?_cons_of_neg _ (by simp [hpx])]
        exact ih l2 h

/-- Every generated column row carries the generated `table_id`. -/
theorem mkColRows_filter_tid :
    ∀ (cols : List ColumnMetadata) (tid cid idx : Nat),
      (mkColRows tid cid idx cols).filter (fun c => c.table_id == tid) =
        mkColRows tid cid idx cols := by
  intro cols
  induction cols with
  | nil => intro tid cid idx; rfl
  | cons c rest ih =>
      intro tid cid idx
      simp only [mkColRows, List.filter_cons]
      rw [if_pos (by simp)]
      rw [ih]

/-- The generated rows are already in `column_order` order, so the
insertion sort leaves them unchanged. -/
theorem sortByOrder_mkColRows :
    ∀ (cols : List ColumnMetadata) (tid cid idx : Nat),
      sortByOrder (mkColRows tid cid idx cols) = mkColRows tid cid idx cols := by
  intro cols
  induction cols with
  | nil => intro tid cid idx; rfl
  | cons c rest ih =>
      intro tid cid idx
      show sortByOrder (⟨cid, tid, c.name, c.data_type, c.nullable, c.comment, idx⟩ ::
        mkColRows tid (cid + 1) (idx + 1) rest) = _
      unfold sortByOrder
      rw [List.foldr_cons]
      have : (mkColRows tid (cid + 1) (idx + 1) rest).foldr insertByOrder [] =
          mkColRows tid (cid + 1) (idx + 1) rest := ih tid (cid + 1) (idx + 1)
      rw [this]
      cases hrest : mkColRows tid (cid + 1) (idx + 1) rest with
      | nil => simp [insertByOrder, mkColRows, hrest]
      | cons r2 rs =>
          have hord : idx ≤ r2.column_order := by
            cases rest with
            | nil => simp [mkColRows] at hrest
            | cons c2 cs =>
                simp only [mkColRows, List.cons.injEq] at hrest
                rw [← hrest.1]
                exact Nat.le_succ idx
          simp [insertByOrder, hord, mkColRows, hrest]

/-- Reading the generated rows back gives the original columns. -/
theorem mkColRows_map_back :
    ∀ (cols : List ColumnMetadata) (tid cid idx : Nat),
      (mkColRows tid cid idx cols).map
        (fun c => (⟨c.column_name, c.data_type, c.nullable, c.comment⟩ : ColumnMetadata)) =
        cols := by
  intro cols
  induction cols with
  | nil => intro tid cid idx; rfl
  | cons c rest ih =>
      intro tid cid idx
      simp only [mkColRows, List.map_cons, ih]

/-! ## Claim C1 — format immutability -/

/-- C1 counterexample: re-saving table `t` (stored as ICEBERG) with
format DELTA does not fail — the save succeeds and the stored format
silently becomes DELTA. -/
theorem C1_format_overwrite_counterexample :
    (get_table_metadata catIceberg "t").map (fun x => x.format) = some "ICEBERG" ∧
    (match save_table_metadata catIceberg mdDeltaT 99 with
      | .ok (st', _) => (get_table_metadata st' "t").map (fun x => x.format)
      | .error _ => none) = some "DELTA" := by
  exact ⟨by decide, by decide⟩

/-- C1 (amended): once `table_name` exists with format `F`, a save with
a different format succeeds (provided the column names are distinct)
and silently overwrites the stored row — the retrieved format after the
save is the incoming one; no FormatMismatch check exists. -/
theorem C1_format_silently_replaced :
    ∀ (st : Catalog) (m : TableMetadata) (now : Nat) (r : TableRow),
      st.tables.find? (fun t => t.table_name == m.table_name) = some r →
      (m.columns.map (fun c => c.name)).Nodup →
      ∃ st', save_table_metadata st m now = .ok (st', r.id) ∧
        (get_table_metadata st' m.table_name).map (fun x => x.format) = some m.format := by
  intro st m now r hfind hnd
  have hside : ∀ c ∈ st.columns.filter (fun c => !(c.table_id == r.id)),
      c.table_id = r.id → ¬ c.column_name ∈ m.columns.map (fun c => c.name) := by
    intro c hc h1
    have h2 := (List.mem_filter.mp hc).2
    simp [h1] at h2
  have hins := insertColumnRows_ok m.columns
    (st.columns.filter (fun c => !(c.table_id == r.id))) r.id st.nextColumnId 0 hnd hside
  refine ⟨{ st with
      tables := st.tables.map (fun t => if t.id == r.id then updateTableRow t m now else t),
      columns := (st.columns.filter (fun c => !(c.table_id == r.id))) ++
        mkColRows r.id st.nextColumnId 0 m.columns,
      nextColumnId := st.nextColumnId + m.columns.length }, ?_, ?_⟩
  · simp only [save_table_metadata, hfind, hins]
  · have hp : ∀ t : TableRow,
        ((if t.id == r.id then updateTableRow t m now else t).table_name ==
          m.table_name) = (t.table_name == m.table_name) := by
      intro t
      by_cases h : (t.id == r.id) = true <;> simp [h, updateTableRow]
    have hf2 := find?_map_preserve
      (fun t => if t.id == r.id then updateTableRow t m now else t)
      (fun t => t.table_name == m.table_name) hp st.tables r hfind
    simp only [get_table_metadata, hf2]
    simp [updateTableRow]

/-- C1 witness: the amended behavior at the concrete catalog. -/
theorem C1_format_silently_replaced_witness :
    ∃ st', save_table_metadata catIceberg mdDeltaT 99 = .ok (st', 1) ∧
      (get_table_metadata st' "t").map (fun x => x.format) = some "DELTA" :=
  C1_format_silently_replaced catIceberg mdDeltaT 99
    ⟨1, "t", "ICEBERG", "s3://b/t", [], [], true, none, none, none, 10, 10⟩
    (by decide) (by decide)

/-! ## Claim C8 — save/get round-trip -/

/-- C8 counterexample: normalizer-produced metadata has
`created_at = None`, but after a save the retrieved `created_at` is the
save instant — the retrieved value differs from `m` in `created_at`,
not only in `updated_at`. -/
theorem C8_roundtrip_counterexample :
    mdFresh.created_at = none ∧
    (match save_table_metadata Catalog.empty mdFresh 42 with
      | .ok (st', _) => (get_table_metadata st' "t").map (fun x => x.created_at)
      | .error _ => none) = some (some 42) := by
  exact ⟨rfl, by decide⟩

/-- C8 (amended): saving `m` into a catalog without `m.table_name`
and reading it back returns `m` exactly, except that `created_at` and
`updated_at` come back as their stored defaults — the value itself when
set, the save instant otherwise (normalizer output always has
`created_at = None`, so that field always differs). -/
theorem C8_roundtrip_modulo_timestamps :
    ∀ (st : Catalog) (m : TableMetadata) (now : Nat),
      Catalog.WF st →
      st.tables.find? (fun t => t.table_name == m.table_name) = none →
      (m.columns.map (fun c => c.name)).Nodup →
      ∃ st', save_table_metadata st m now = .ok (st', st.nextTableId) ∧
        get_table_metadata st' m.table_name =
          some { m with created_at := some (m.created_at.getD now),
                        updated_at := some (m.updated_at.getD now) } := by
  intro st m now hwf hfind hnd
  have hside : ∀ c ∈ st.columns, c.table_id = st.nextTableId →
      ¬ c.column_name ∈ m.columns.map (fun c => c.name) := by
    intro c hc h1
    exact absurd h1 (Nat.ne_of_lt (hwf.2 c hc))
  have hins := insertColumnRows_ok m.columns st.columns st.nextTableId st.nextColumnId 0
    hnd hside
  refine ⟨⟨st.tables ++ [mkTableRow st.nextTableId m now],
      st.columns ++ mkColRows st.nextTableId st.nextColumnId 0 m.columns,
      st.nextTableId + 1, st.nextColumnId + m.columns.length⟩, ?_, ?_⟩
  · simp only [save_table_metadata, hfind, hins]
  · have hfr : (st.tables ++ [mkTableRow st.nextTableId m now]).find?
        (fun t => t.table_name == m.table_name) = some (mkTableRow st.nextTableId m now) := by
      rw [find?_append_none _ _ _ hfind]
      rw [List.find?_cons_of_pos _ (by simp [mkTableRow])]
    simp only [get_table_metadata, hfr]
    have hempty : st.columns.filter (fun c => c.table_id == st.nextTableId) = [] := by
      rw [List.filter_eq_nil_iff]
      intro c hc
      simp only [beq_iff_eq]
      exact Nat.ne_of_lt (hwf.2 c hc)
    have hfilter : (st.columns ++ mkColRows st.nextTableId st.nextColumnId 0 m.columns).filter
        (fun c => c.table_id == (mkTableRow st.nextTableId m now).id) =
        mkColRows st.nextTableId st.nextColumnId 0 m.columns := by
      show (st.columns ++ mkColRows st.nextTableId st.nextColumnId 0 m.columns).filter
        (fun c => c.table_id == st.nextTableId) = _
      rw [List.filter_append, hempty, mkColRows_filter_tid]
      rfl
    rw [hfilter, sortByOrder_mkColRows, mkColRows_map_back]
    simp [mkTableRow]

/-- C8 witness: the amended round-trip at the concrete fresh catalog. -/
theorem C8_roundtrip_modulo_timestamps_witness :
    ∃ st', save_table_metadata Catalog.empty mdFresh 42 = .ok (st', 1) ∧
      get_table_metadata st' "t" =
        some { mdFresh with created_at := some 42, updated_at := some 7 } :=
  C8_roundtrip_modulo_timestamps Catalog.empty mdFresh 42
    (by constructor <;> simp [Catalog.empty]) rfl (by decide)

/-! ## Claim C9 — delete cascade -/

/-- C9: after `delete_table_metadata name`, `get_table_metadata name`
returns `None` (unconditionally, for every catalog), and no surviving
`column_metadata` row references the id of any deleted table row. -/
theorem C9_delete_cascade :
    ∀ (st : Catalog) (name : String),
      get_table_metadata (delete_table_metadata st name).1 name = none ∧
      ∀ t ∈ st.tables, t.table_name = name →
        ∀ c ∈ (delete_table_metadata st name).1.columns, c.table_id ≠ t.id := by
  intro st name
  constructor
  · simp only [get_table_metadata, delete_table_metadata]
    have hnone : (st.tables.filter (fun x => !(x.table_name == name))).find?
        (fun x => x.table_name == name) = none := by
      rw [List.find?_eq_none]
      intro x hx
      have h2 := (List.mem_filter.mp hx).2
      simp only [Bool.not_eq_true'] at h2
      simp [h2]
    rw [hnone]
  · intro t ht htn c hc
    simp only [delete_table_metadata] at hc
    have h2 := (List.mem_filter.mp hc).2
    intro heq
    have hvict : t ∈ st.tables.filter (fun x => x.table_name == name) :=
      List.mem_filter.mpr ⟨ht, by simp [htn]⟩
    have : (st.tables.filter (fun x => x.table_name == name)).any
        (fun v => v.id == c.table_id) = true := by
      rw [List.any_eq_true]
      exact ⟨t, hvict, by simp [heq]⟩
    rw [this] at h2
    simp at h2

/-- C9 witness: deleting `t` from the two-table catalog makes `get t`
return `None`, and the one surviving column row references table id 2,
not the deleted id 1. -/
theorem C9_delete_cascade_witness :
    get_table_metadata (delete_table_metadata catTwoTables "t").1 "t" = none ∧
      (2 : Nat) ≠ 1 :=
  ⟨(C9_delete_cascade catTwoTables "t").1,
   (C9_delete_cascade catTwoTables "t").2
     ⟨1, "t", "DELTA", "s3://b/t", [], [], true, none, none, none, 0, 0⟩
     (by decide) rfl
     ⟨2, 2, "b", "VARCHAR", true, none, 0⟩ (by decide)⟩

/-! ## Claim C10 — duplicate column names -/

/-- C10: a `TableMetadata` with two columns of the same name makes
`save_table_metadata` raise `StorageError` for the UNIQUE constraint,
the transaction rolls back, and the observable catalog (get/list/count)
is unchanged. -/
theorem C10_duplicate_column_save_fails :
    ∀ (st : Catalog) (m : TableMetadata) (now : Nat),
      ¬ (m.columns.map (fun c => c.name)).Nodup →
      save_table_metadata st m now = .error (.backend uniqueViolationMsg) ∧
      saveResultState st m now = st ∧
      (∀ n, get_table_metadata (saveResultState st m now) n = get_table_metadata st n) ∧
      list_tables (saveResultState st m now) none = list_tables st none ∧
      get_table_count (saveResultState st m now) = get_table_count st := by
  intro st m now hdup
  have herr : save_table_metadata st m now = .error (.backend uniqueViolationMsg) := by
    cases hfind : st.tables.find? (fun t => t.table_name == m.table_name) with
    | some ex =>
        simp only [save_table_metadata, hfind]
        rw [insertColumnRows_dup m.columns _ ex.id st.nextColumnId 0 hdup]
    | none =>
        simp only [save_table_metadata, hfind]
        rw [insertColumnRows_dup m.columns _ st.nextTableId st.nextColumnId 0 hdup]
  have hstate : saveResultState st m now = st := by
    simp [saveResultState, herr]
  exact ⟨herr, hstate, fun n => by rw [hstate], by rw [hstate], by rw [hstate]⟩

/-- C10 witness: the duplicate-column save fails on the empty catalog
and leaves it unchanged. -/
theorem C10_duplicate_column_save_fails_witness :
    save_table_metadata Catalog.empty mdDupCols 5 = .error (.backend uniqueViolationMsg) ∧
      saveResultState Catalog.empty mdDupCols 5 = Catalog.empty :=
  have h := C10_duplicate_column_save_fails Catalog.empty mdDupCols 5 (by decide)
  ⟨h.1, h.2.1⟩

end MetaEngine
